import Mathlib

/-!
Verification of the Pixabay MCP server (photo-mcp repository).

The development shallowly embeds the request/response normalization and
validation pipeline of the server (`app/server/src/pixabay.ts`,
`app/server/src/schemas.ts`, `app/server/src/index.ts`) into Lean:

* JavaScript strings are modelled as Lean `String`; `String.prototype.trim`
  is modelled by `jsTrim` over the ECMAScript whitespace set (ASCII cases
  plus the common Unicode ones); case folding is modelled for ASCII.
* JSON values are modelled by the inductive type `Json`, with numbers as
  `Rat` (every JSON numeric literal denotes a rational); `JSON.parse` is
  modelled by the fuel-based recursive-descent `jsonParse` following the
  JSON grammar (objects, arrays, strings with escapes, numbers, literals).
* zod schemas are modelled as functions from JSON-shaped inputs to
  `Option`/`Except` results that collect one message per violated check;
  `z.string().url()` (a check delegated to the WHATWG URL parser) is kept
  abstract as a `urlOk : String → Bool` parameter.
* Fallible code paths return `Option`/`Except`; the HTTP layer is out of
  scope, so response data (status, body text, headers) appears as explicit
  arguments.
-/

namespace Pixabay

/-! ## JavaScript string trimming -/

/-- ECMAScript whitespace used by `String.prototype.trim`: ASCII whitespace
characters plus the Unicode space separators, line separators and the BOM. -/
def isJsWhitespace (c : Char) : Bool :=
  c = ' ' || c = '\t' || c = '\n' || c = '\r' ||
  c = Char.ofNat 11 || c = Char.ofNat 12 ||
  c = Char.ofNat 0xa0 || c = Char.ofNat 0x1680 ||
  (0x2000 ≤ c.toNat && c.toNat ≤ 0x200a) ||
  c = Char.ofNat 0x2028 || c = Char.ofNat 0x2029 ||
  c = Char.ofNat 0x202f || c = Char.ofNat 0x205f ||
  c = Char.ofNat 0x3000 || c = Char.ofNat 0xfeff

/-- Drop ECMAScript whitespace from both ends of a character list. -/
def trimCharList (cs : List Char) : List Char :=
  ((cs.dropWhile isJsWhitespace).reverse.dropWhile isJsWhitespace).reverse

/-- Model of JavaScript `String.prototype.trim`. -/
def jsTrim (s : String) : String :=
  String.mk (trimCharList s.data)

/-- Model of JavaScript `String.prototype.startsWith`. -/
def strStartsWith (s pre : String) : Bool :=
  pre.data.isPrefixOf s.data

/-- Model of JavaScript `String.prototype.endsWith`. -/
def strEndsWith (s suf : String) : Bool :=
  suf.data.isSuffixOf s.data

/-- ASCII-only lower casing, matching `toLowerCase` on the ASCII inputs the
server compares against (its comparison sets are all ASCII). -/
def asciiLower (s : String) : String :=
  String.mk (s.data.map Char.toLower)

/-! ## JSON values and `JSON.parse` -/

/-- JSON values. Numbers are rationals: every JSON numeric literal denotes a
rational with a denominator dividing a power of ten. -/
inductive Json where
  | null : Json
  | bool (b : Bool) : Json
  | num (q : Rat) : Json
  | str (s : String) : Json
  | arr (elems : List Json) : Json
  | obj (fields : List (String × Json)) : Json
  deriving Inhabited

/-- Property access on a JSON object: the last binding wins, matching the
semantics of duplicate keys in `JSON.parse`. -/
def lookupLast (fields : List (String × Json)) (key : String) : Option Json :=
  match fields with
  | [] => none
  | (k, v) :: rest =>
    match lookupLast rest key with
    | some w => some w
    | none => if k = key then some v else none

/-- Whitespace accepted between JSON tokens (RFC 8259). -/
def isJsonWs (c : Char) : Bool :=
  c = ' ' || c = '\t' || c = '\n' || c = '\r'

/-- Skip inter-token whitespace. -/
def skipWs (cs : List Char) : List Char :=
  cs.dropWhile isJsonWs

/-- Value of a hexadecimal digit. -/
def hexVal (c : Char) : Option Nat :=
  if '0' ≤ c ∧ c ≤ '9' then some (c.toNat - 48)
  else if 'a' ≤ c ∧ c ≤ 'f' then some (c.toNat - 87)
  else if 'A' ≤ c ∧ c ≤ 'F' then some (c.toNat - 55)
  else none

/-- Single-character JSON string escapes. -/
def escChar (c : Char) : Option Char :=
  if c = '"' then some '"'
  else if c = '\\' then some '\\'
  else if c = '/' then some '/'
  else if c = 'b' then some (Char.ofNat 8)
  else if c = 'f' then some (Char.ofNat 12)
  else if c = 'n' then some '\n'
  else if c = 'r' then some '\r'
  else if c = 't' then some '\t'
  else none

/-- Parse the remainder of a JSON string literal (the opening quote has been
consumed), returning the decoded string and the unconsumed input. -/
def parseStringRest (fuel : Nat) (cs : List Char) : Option (String × List Char) :=
  match fuel with
  | 0 => none
  | fuel + 1 =>
    match cs with
    | [] => none
    | c :: rest =>
      if c = '"' then some ("", rest)
      else if c = '\\' then
        match rest with
        | [] => none
        | e :: rest2 =>
          if e = 'u' then
            match rest2 with
            | a :: b :: c2 :: d :: rest3 =>
              match hexVal a, hexVal b, hexVal c2, hexVal d with
              | some ha, some hb, some hc, some hd =>
                (parseStringRest fuel rest3).map
                  (fun p => (String.mk (Char.ofNat (ha * 4096 + hb * 256 + hc * 16 + hd) :: p.1.data), p.2))
              | _, _, _, _ => none
            | _ => none
          else
            match escChar e with
            | some ec =>
              (parseStringRest fuel rest2).map (fun p => (String.mk (ec :: p.1.data), p.2))
            | none => none
      else if c.toNat < 32 then none
      else (parseStringRest fuel rest).map (fun p => (String.mk (c :: p.1.data), p.2))

/-- Numeric value of a digit list. -/
def digitsToNat (ds : List Char) : Nat :=
  ds.foldl (fun acc c => acc * 10 + (c.toNat - 48)) 0

/-- Parse an optional exponent part of a JSON number. -/
def parseExpPart (cs : List Char) : Option (Int × List Char) :=
  match cs with
  | [] => some (0, cs)
  | c :: r =>
    if c = 'e' ∨ c = 'E' then
      let signAndRest : Int × List Char :=
        match r with
        | '+' :: r2 => (1, r2)
        | '-' :: r2 => (-1, r2)
        | _ => (1, r)
      let ds := signAndRest.2.takeWhile Char.isDigit
      let r2 := signAndRest.2.dropWhile Char.isDigit
      if ds.isEmpty then none
      else some (signAndRest.1 * Int.ofNat (digitsToNat ds), r2)
    else some (0, c :: r)

/-- Parse a JSON number (RFC 8259 grammar: optional minus, integer part with
no leading zeros, optional fraction, optional exponent). -/
def parseNumber (cs : List Char) : Option (Json × List Char) :=
  let signAndRest : Bool × List Char :=
    match cs with
    | '-' :: r => (true, r)
    | _ => (false, cs)
  let neg := signAndRest.1
  let cs1 := signAndRest.2
  let intDs := cs1.takeWhile Char.isDigit
  let cs2 := cs1.dropWhile Char.isDigit
  if intDs.isEmpty then none
  else if 1 < intDs.length ∧ intDs.head? = some '0' then none
  else
    let fracStep : Option (List Char × List Char) :=
      match cs2 with
      | '.' :: r =>
        let ds := r.takeWhile Char.isDigit
        if ds.isEmpty then none else some (ds, r.dropWhile Char.isDigit)
      | _ => some ([], cs2)
    match fracStep with
    | none => none
    | some (fracDs, cs3) =>
      match parseExpPart cs3 with
      | none => none
      | some (e, cs4) =>
        let mantissa : Int := Int.ofNat (digitsToNat (intDs ++ fracDs))
        let signed : Int := if neg then -mantissa else mantissa
        let eff : Int := e - Int.ofNat fracDs.length
        let value : Rat :=
          if 0 ≤ eff then (signed : Rat) * (10 : Rat) ^ eff.toNat
          else (signed : Rat) / (10 : Rat) ^ (-eff).toNat
        some (Json.num value, cs4)

mutual

/-- Parse one JSON value, dispatching on the first non-whitespace character. -/
def parseValue (fuel : Nat) (cs : List Char) : Option (Json × List Char) :=
  match fuel with
  | 0 => none
  | fuel + 1 =>
    match skipWs cs with
    | [] => none
    | '{' :: rest => parseObjectRest fuel rest
    | '[' :: rest => parseArrayRest fuel rest
    | '"' :: rest => (parseStringRest (fuel + 1) rest).map (fun p => (Json.str p.1, p.2))
    | 't' :: rest =>
      if rest.take 3 = ['r', 'u', 'e'] then some (Json.bool true, rest.drop 3) else none
    | 'f' :: rest =>
      if rest.take 4 = ['a', 'l', 's', 'e'] then some (Json.bool false, rest.drop 4) else none
    | 'n' :: rest =>
      if rest.take 3 = ['u', 'l', 'l'] then some (Json.null, rest.drop 3) else none
    | c :: rest => parseNumber (c :: rest)

/-- Parse the remainder of a JSON object (after the opening brace). -/
def parseObjectRest (fuel : Nat) (cs : List Char) : Option (Json × List Char) :=
  match fuel with
  | 0 => none
  | fuel + 1 =>
    match skipWs cs with
    | '}' :: rest => some (Json.obj [], rest)
    | _ => (parseMembers fuel cs []).map (fun p => (Json.obj p.1, p.2))

/-- Parse the member list of a JSON object, accumulating parsed fields. -/
def parseMembers (fuel : Nat) (cs : List Char) (acc : List (String × Json)) :
    Option (List (String × Json) × List Char) :=
  match fuel with
  | 0 => none
  | fuel + 1 =>
    match skipWs cs with
    | '"' :: rest =>
      match parseStringRest (fuel + 1) rest with
      | none => none
      | some (key, r1) =>
        match skipWs r1 with
        | ':' :: r2 =>
          match parseValue fuel r2 with
          | none => none
          | some (v, r3) =>
            match skipWs r3 with
            | ',' :: r4 => parseMembers fuel r4 (acc ++ [(key, v)])
            | '}' :: r4 => some (acc ++ [(key, v)], r4)
            | _ => none
        | _ => none
    | _ => none

/-- Parse the remainder of a JSON array (after the opening bracket). -/
def parseArrayRest (fuel : Nat) (cs : List Char) : Option (Json × List Char) :=
  match fuel with
  | 0 => none
  | fuel + 1 =>
    match skipWs cs with
    | ']' :: rest => some (Json.arr [], rest)
    | _ => (parseElems fuel cs []).map (fun p => (Json.arr p.1, p.2))

/-- Parse the element list of a JSON array, accumulating parsed values. -/
def parseElems (fuel : Nat) (cs : List Char) (acc : List Json) :
    Option (List Json × List Char) :=
  match fuel with
  | 0 => none
  | fuel + 1 =>
    match parseValue fuel cs with
    | none => none
    | some (v, r) =>
      match skipWs r with
      | ',' :: r2 => parseElems fuel r2 (acc ++ [v])
      | ']' :: r2 => some (acc ++ [v], r2)
      | _ => none

end

/-- Model of JavaScript `JSON.parse`: parse one value and require only
whitespace afterwards. The fuel is an upper bound on the recursion depth;
eight steps per input character is ample for every JSON document. -/
def jsonParse (s : String) : Option Json :=
  match parseValue (8 * (s.data.length + 2)) s.data with
  | some (v, rest) => if skipWs rest = [] then some v else none
  | none => none

/-! ## URL sanitizing and small string helpers (`pixabay.ts`) -/

/-- Test for the regular expression `^https?:\/\//i`: an ASCII
case-insensitive absolute http(s) prefix. -/
def isHttpUrl (s : String) : Bool :=
  strStartsWith (asciiLower s) "http://" || strStartsWith (asciiLower s) "https://"

/-- Model of `sanitizeUrl` from `pixabay.ts`: reject missing or empty values,
trim, and require an absolute http(s) prefix; return the trimmed URL. -/
def sanitizeUrl (value : Option String) : Option String :=
  match value with
  | none => none
  | some v =>
    if v = "" then none
    else
      let trimmed := jsTrim v
      if trimmed = "" then none
      else if isHttpUrl trimmed then some trimmed
      else none

/-- Model of `normalizeTags` from `pixabay.ts`: split the comma-separated tag
string, trim each piece, and drop empty pieces. -/
def normalizeTags (tags : String) : List String :=
  ((tags.splitOn ",").map jsTrim).filter (fun tag => tag.length > 0)

/-- Unreserved characters of `encodeURIComponent`. -/
def isUriUnreserved (c : Char) : Bool :=
  c.isAlphanum || c = '-' || c = '_' || c = '.' || c = '!' || c = '~' ||
  c = '*' || c = Char.ofNat 39 || c = '(' || c = ')'

/-- Upper-case hexadecimal digit. -/
def hexDigitChar (n : Nat) : Char :=
  if n < 10 then Char.ofNat (48 + n) else Char.ofNat (55 + n)

/-- UTF-8 bytes of a Unicode scalar value. -/
def utf8Bytes (n : Nat) : List Nat :=
  if n < 0x80 then [n]
  else if n < 0x800 then [0xc0 + n / 64, 0x80 + n % 64]
  else if n < 0x10000 then [0xe0 + n / 4096, 0x80 + (n / 64) % 64, 0x80 + n % 64]
  else [0xf0 + n / 262144, 0x80 + (n / 4096) % 64, 0x80 + (n / 64) % 64, 0x80 + n % 64]

/-- Percent-encoding of one character as in `encodeURIComponent`. -/
def percentEncodeChar (c : Char) : List Char :=
  (utf8Bytes c.toNat).foldr
    (fun b acc => '%' :: hexDigitChar (b / 16) :: hexDigitChar (b % 16) :: acc) []

/-- Model of JavaScript `encodeURIComponent` (at the Unicode-scalar level). -/
def encodeURIComponent (s : String) : String :=
  String.mk (s.data.foldr
    (fun c acc => if isUriUnreserved c then c :: acc else percentEncodeChar c ++ acc) [])

/-- Zero-padded decimal string of the given width. -/
def padLeftZeros (s : String) (k : Nat) : String :=
  String.mk (List.replicate (k - s.length) '0' ++ s.data)

/-- Decimal rendering of a JavaScript number in template literals, for the
values reaching it here: integers render as plain decimals; a non-integer
rational whose denominator divides a power of ten (every JSON numeric
literal) renders with a fractional part; other rationals (unreachable from
parsed JSON) fall back to fraction notation. Exponential display of very
large or very small magnitudes is not modelled. -/
def jsNumToString (q : Rat) : String :=
  if q.den = 1 then toString q.num
  else
    match (List.range 400).find? (fun k => (q * (10 : Rat) ^ k).den = 1) with
    | some k =>
      let m := (q * (10 : Rat) ^ k).num.natAbs
      (if q < 0 then "-" else "") ++ toString (m / 10 ^ k) ++ "." ++
        padLeftZeros (toString (m % 10 ^ k)) k
    | none => toString q.num ++ "/" ++ toString q.den

/-- Model of `buildContributorProfile` from `pixabay.ts`. -/
def buildContributorProfile (username : String) (userId : Rat) : String :=
  "https://pixabay.com/users/" ++ encodeURIComponent username ++ "-" ++
    jsNumToString userId ++ "/"

/-! ## Locale resolution (`pixabay.ts`) -/

/-- The fixed supported-language set `SUPPORTED_LANGS` from `pixabay.ts`. -/
def SUPPORTED_LANGS : List String :=
  ["cs", "da", "de", "en", "es", "fr", "id", "it", "hu", "nl", "no", "pl",
   "pt", "ro", "sk", "fi", "sv", "tr", "vi", "th", "bg", "ru", "el", "ja",
   "ko", "zh"]

/-- The configured default locale (`serverConfig.defaultLocale`). -/
def defaultLocale : String := "en"

/-- The part of a locale before the first `-` or `_`, the value of
`locale.split(/[-_]/)[0]`. -/
def primarySubtag (locale : String) : String :=
  String.mk (locale.data.takeWhile (fun c => c ≠ '-' && c ≠ '_'))

/-- Model of `resolveLanguage` from `pixabay.ts`. A `none` locale models
`undefined`; the empty string is falsy in JavaScript, hence the extra test. -/
def resolveLanguage (locale : Option String) : String :=
  match locale with
  | none => defaultLocale
  | some l =>
    if l = "" then defaultLocale
    else
      let candidate := asciiLower (primarySubtag l)
      if candidate ≠ "" && SUPPORTED_LANGS.contains candidate then candidate
      else defaultLocale

/-! ## Image hits (`schemas.ts` / `pixabay.ts`) -/

/-- A validated Pixabay image hit (`pixabayImageHitSchema`). -/
structure PixabayImageHit where
  id : Rat
  pageURL : String
  previewURL : String
  webformatURL : String
  imageWidth : Rat
  imageHeight : Rat
  tags : String
  user : String
  user_id : Rat
  userImageURL : Option String
  likes : Rat
  downloads : Rat
  deriving Inhabited

/-- Photographer/creator attribution of a result. -/
structure Photographer where
  name : String
  profileUrl : String
  deriving DecidableEq, Repr, Inhabited

/-- The outward image-result shape (`ImageResult` in `schemas.ts`). -/
structure ImageResult where
  id : Rat
  previewUrl : String
  pageUrl : String
  imageUrl : String
  imageWidth : Rat
  imageHeight : Rat
  tags : List String
  photographer : Photographer
  likes : Rat
  downloads : Rat
  deriving DecidableEq, Repr, Inhabited

/-- Read a field of a JSON object (`undefined` for absent keys or non-object
receivers is modelled as `none`). -/
def jsonFieldLast (j : Json) (key : String) : Option Json :=
  match j with
  | Json.obj fields => lookupLast fields key
  | _ => none

/-- Numeric JSON value (`z.number()`). -/
def asNum (j : Json) : Option Rat :=
  match j with
  | Json.num q => some q
  | _ => none

/-- String JSON value (`z.string()`). -/
def asStr (j : Json) : Option String :=
  match j with
  | Json.str s => some s
  | _ => none

/-- String JSON value passing the url check (`z.string().url()`); the WHATWG
URL well-formedness test itself stays abstract as `urlOk`. -/
def asUrl (urlOk : String → Bool) (j : Json) : Option String :=
  match j with
  | Json.str s => if urlOk s then some s else none
  | _ => none

/-- The optional nullable `userImageURL` field: absent or `null` map to
`none`; a string must be empty or a well-formed URL. -/
def parseUserImageURL (urlOk : String → Bool) (v : Option Json) : Option (Option String) :=
  match v with
  | none => some none
  | some Json.null => some none
  | some (Json.str s) => if s = "" || urlOk s then some (some s) else none
  | some _ => none

/-- Model of `pixabayImageHitSchema.safeParse`: validate one raw hit,
returning the typed hit or `none`. Unknown keys are stripped (non-strict
zod object). -/
def parseImageHit (urlOk : String → Bool) (j : Json) : Option PixabayImageHit := do
  match j with
  | Json.obj fields =>
    let id ← (lookupLast fields "id").bind asNum
    let pageURL ← (lookupLast fields "pageURL").bind (asUrl urlOk)
    let previewURL ← (lookupLast fields "previewURL").bind (asUrl urlOk)
    let webformatURL ← (lookupLast fields "webformatURL").bind (asUrl urlOk)
    let imageWidth ← (lookupLast fields "imageWidth").bind asNum
    let imageHeight ← (lookupLast fields "imageHeight").bind asNum
    let tags ← (lookupLast fields "tags").bind asStr
    let user ← (lookupLast fields "user").bind asStr
    let user_id ← (lookupLast fields "user_id").bind asNum
    let userImageURL ← parseUserImageURL urlOk (lookupLast fields "userImageURL")
    let likes ← (lookupLast fields "likes").bind asNum
    let downloads ← (lookupLast fields "downloads").bind asNum
    pure {
      id, pageURL, previewURL, webformatURL, imageWidth, imageHeight,
      tags, user, user_id, userImageURL, likes, downloads }
  | _ => none

/-- The per-hit mapping of `searchImages` in `pixabay.ts`. -/
def imageHitToResult (hit : PixabayImageHit) : ImageResult :=
  { id := hit.id
    previewUrl := hit.previewURL
    pageUrl := hit.pageURL
    imageUrl := hit.webformatURL
    imageWidth := hit.imageWidth
    imageHeight := hit.imageHeight
    tags := normalizeTags hit.tags
    photographer :=
      { name := hit.user
        profileUrl := buildContributorProfile hit.user hit.user_id }
    likes := hit.likes
    downloads := hit.downloads }

/-- The validation loop of `searchImages`: hits failing `safeParse` are
skipped, the rest are kept in order. -/
def parseImageHits (urlOk : String → Bool) (hits : List Json) : List PixabayImageHit :=
  hits.filterMap (parseImageHit urlOk)

/-- The mapped image results of `searchImages` for a raw hits array. -/
def searchImagesResults (urlOk : String → Bool) (hits : List Json) : List ImageResult :=
  (parseImageHits urlOk hits).map imageHitToResult

/-- The `hits` array of a response body: `Array.isArray(json.hits) ?
json.hits : []`. -/
def bodyHits (body : Json) : List Json :=
  match jsonFieldLast body "hits" with
  | some (Json.arr hs) => hs
  | _ => []

/-- The reported total of a search: `json.totalHits ?? results.length`
(`??` falls through on `null`/`undefined` only). -/
def coalesceTotalHits (body : Json) (fallback : Nat) : Json :=
  match jsonFieldLast body "totalHits" with
  | some Json.null => Json.num fallback
  | some v => v
  | none => Json.num fallback

/-- Result shape of `searchImages` (rate-limit info out of scope). -/
structure ImageSearchOutcome where
  results : List ImageResult
  totalHits : Json
  deriving Inhabited

/-- Model of the response mapping of `PixabayClient.searchImages` on a parsed
response body. -/
def searchImagesFromBody (urlOk : String → Bool) (body : Json) : ImageSearchOutcome :=
  let results := searchImagesResults urlOk (bodyHits body)
  { results, totalHits := coalesceTotalHits body results.length }

/-! ## Video hits (`schemas.ts` / `pixabay.ts`) -/

/-- A validated video rendition (`pixabayVideoRenditionSchema`). -/
structure VideoRendition where
  url : String
  width : Rat
  height : Rat
  size : Option Rat
  thumbnail : Option String
  deriving Inhabited

/-- The strict rendition map of a video hit (`videos` field). -/
structure VideoRenditions where
  large : Option VideoRendition
  medium : Option VideoRendition
  small : Option VideoRendition
  tiny : Option VideoRendition
  deriving Inhabited

/-- A validated Pixabay video hit (`pixabayVideoHitSchema`). -/
structure PixabayVideoHit where
  id : Rat
  pageURL : String
  tags : String
  duration : Rat
  type : String
  videos : VideoRenditions
  user : String
  user_id : Rat
  userImageURL : Option String
  views : Option Rat
  downloads : Option Rat
  likes : Option Rat
  deriving Inhabited

/-- Rendition keys of the `videos` map. -/
inductive RenditionKey where
  | large | medium | small | tiny
  deriving DecidableEq, Repr

/-- Field access on the rendition map by key. -/
def VideoRenditions.get (vs : VideoRenditions) : RenditionKey → Option VideoRendition
  | RenditionKey.large => vs.large
  | RenditionKey.medium => vs.medium
  | RenditionKey.small => vs.small
  | RenditionKey.tiny => vs.tiny

/-- `VIDEO_RENDITION_ORDER` from `pixabay.ts`. -/
def VIDEO_RENDITION_ORDER : List RenditionKey :=
  [RenditionKey.medium, RenditionKey.large, RenditionKey.small, RenditionKey.tiny]

/-- `THUMBNAIL_RENDITION_ORDER` from `pixabay.ts`. -/
def THUMBNAIL_RENDITION_ORDER : List RenditionKey :=
  [RenditionKey.medium, RenditionKey.small, RenditionKey.large, RenditionKey.tiny]

/-- The selection loop of `PixabayClient.pickVideoRendition`: skip absent
renditions, return the first whose URL sanitizes. -/
def pickFromOrder (keys : List RenditionKey) (vs : VideoRenditions) : Option VideoRendition :=
  match keys with
  | [] => none
  | k :: ks =>
    match vs.get k with
    | none => pickFromOrder ks vs
    | some r =>
      if (sanitizeUrl (some r.url)).isSome then some r
      else pickFromOrder ks vs

/-- Model of `PixabayClient.pickVideoRendition`. -/
def pickVideoRendition (hit : PixabayVideoHit) : Option VideoRendition :=
  pickFromOrder VIDEO_RENDITION_ORDER hit.videos

/-- The fallback loop of `PixabayClient.findThumbnail`: skip absent
renditions, return the first thumbnail that sanitizes. -/
def thumbnailFromOrder (keys : List RenditionKey) (vs : VideoRenditions) : Option String :=
  match keys with
  | [] => none
  | k :: ks =>
    match vs.get k with
    | none => thumbnailFromOrder ks vs
    | some r =>
      match sanitizeUrl r.thumbnail with
      | some t => some t
      | none => thumbnailFromOrder ks vs

/-- Model of `PixabayClient.findThumbnail`. -/
def findThumbnail (hit : PixabayVideoHit) (preferred : Option String) : Option String :=
  match sanitizeUrl preferred with
  | some preferredUrl => some preferredUrl
  | none => thumbnailFromOrder THUMBNAIL_RENDITION_ORDER hit.videos

/-- The outward video-result shape (`VideoResult` in `schemas.ts`). -/
structure VideoResult where
  id : Rat
  pageUrl : String
  videoUrl : String
  previewImageUrl : Option String
  width : Option Rat
  height : Option Rat
  durationSeconds : Rat
  tags : List String
  creator : Photographer
  likes : Option Rat
  downloads : Option Rat
  deriving Inhabited

/-- `Number.isFinite` on a rational: rationals have no `NaN`/`Infinity`, so
the test is constantly true (JavaScript non-finite numbers arise only from
out-of-range doubles, which the rational model does not produce). -/
def ratIsFinite (_ : Rat) : Bool := true

/-- One emitted video result of the loop in `searchVideos` (given the
already-computed sanitized URL and preview thumbnail). -/
def mkVideoResult (hit : PixabayVideoHit) (rendition : VideoRendition)
    (videoUrl : String) (previewImageUrl : Option String) : VideoResult :=
  { id := hit.id
    pageUrl := hit.pageURL
    videoUrl
    previewImageUrl
    width := if ratIsFinite rendition.width then some rendition.width else none
    height := if ratIsFinite rendition.height then some rendition.height else none
    durationSeconds := hit.duration
    tags := normalizeTags hit.tags
    creator :=
      { name := hit.user
        profileUrl := buildContributorProfile hit.user hit.user_id }
    likes :=
      match hit.likes with
      | some n => some n
      | none => none
    downloads :=
      match hit.downloads with
      | some n => some n
      | none => none }

/-- The result loop of `PixabayClient.searchVideos` over parsed hits: drop a
hit without a picked rendition, drop it again if the picked URL fails to
sanitize, otherwise emit a result. -/
def mapVideoHits (hits : List PixabayVideoHit) : List VideoResult :=
  match hits with
  | [] => []
  | hit :: rest =>
    match pickVideoRendition hit with
    | none => mapVideoHits rest
    | some rendition =>
      match sanitizeUrl (some rendition.url) with
      | none => mapVideoHits rest
      | some videoUrl =>
        mkVideoResult hit rendition videoUrl (findThumbnail hit rendition.thumbnail)
          :: mapVideoHits rest

/-- `urlOrEmpty` from `schemas.ts`: a well-formed URL or the empty string. -/
def asUrlOrEmpty (urlOk : String → Bool) (j : Json) : Option String :=
  match j with
  | Json.str s => if s = "" || urlOk s then some s else none
  | _ => none

/-- An optional field validated by `check` when present. -/
def optionalField (check : Json → Option α) (v : Option Json) : Option (Option α) :=
  match v with
  | none => some none
  | some j =>
    match check j with
    | some a => some (some a)
    | none => none

/-- Model of `pixabayVideoRenditionSchema.safeParse` for one rendition. -/
def parseVideoRendition (urlOk : String → Bool) (j : Json) : Option VideoRendition := do
  match j with
  | Json.obj fields =>
    let url ← (lookupLast fields "url").bind (asUrlOrEmpty urlOk)
    let width ← (lookupLast fields "width").bind asNum
    let height ← (lookupLast fields "height").bind asNum
    let size ← optionalField asNum (lookupLast fields "size")
    let thumbnail ← optionalField (asUrlOrEmpty urlOk) (lookupLast fields "thumbnail")
    pure { url, width, height, size, thumbnail }
  | _ => none

/-- Model of the strict `videos` object of `pixabayVideoHitSchema`: only the
four rendition keys are permitted, each optional. -/
def parseVideoRenditions (urlOk : String → Bool) (j : Json) : Option VideoRenditions := do
  match j with
  | Json.obj fields =>
    if fields.all (fun kv =>
        kv.1 = "large" || kv.1 = "medium" || kv.1 = "small" || kv.1 = "tiny") then
      let large ← optionalField (parseVideoRendition urlOk) (lookupLast fields "large")
      let medium ← optionalField (parseVideoRendition urlOk) (lookupLast fields "medium")
      let small ← optionalField (parseVideoRendition urlOk) (lookupLast fields "small")
      let tiny ← optionalField (parseVideoRendition urlOk) (lookupLast fields "tiny")
      pure { large, medium, small, tiny }
    else none
  | _ => none

/-- Model of `pixabayVideoHitSchema.safeParse`: validate one raw video hit. -/
def parseVideoHit (urlOk : String → Bool) (j : Json) : Option PixabayVideoHit := do
  match j with
  | Json.obj fields =>
    let id ← (lookupLast fields "id").bind asNum
    let pageURL ← (lookupLast fields "pageURL").bind (asUrl urlOk)
    let tags ← (lookupLast fields "tags").bind asStr
    let duration ← (lookupLast fields "duration").bind asNum
    if duration.den = 1 ∧ 0 ≤ duration then
      let type ← (lookupLast fields "type").bind asStr
      let videos ← (lookupLast fields "videos").bind (parseVideoRenditions urlOk)
      let user ← (lookupLast fields "user").bind asStr
      let user_id ← (lookupLast fields "user_id").bind asNum
      let userImageURL ← parseUserImageURL urlOk (lookupLast fields "userImageURL")
      let views ← optionalField asNum (lookupLast fields "views")
      let downloads ← optionalField asNum (lookupLast fields "downloads")
      let likes ← optionalField asNum (lookupLast fields "likes")
      pure {
        id, pageURL, tags, duration, type, videos, user, user_id,
        userImageURL, views, downloads, likes }
    else none
  | _ => none

/-- Result shape of `searchVideos` (rate-limit info out of scope). -/
structure VideoSearchOutcome where
  results : List VideoResult
  totalHits : Json
  deriving Inhabited

/-- Model of the response mapping of `PixabayClient.searchVideos` on a parsed
response body. -/
def searchVideosFromBody (urlOk : String → Bool) (body : Json) : VideoSearchOutcome :=
  let results := mapVideoHits ((bodyHits body).filterMap (parseVideoHit urlOk))
  { results, totalHits := coalesceTotalHits body results.length }

/-! ## Error classification (`pixabay.ts`) -/

/-- The three user-facing upstream error kinds. -/
inductive PixabayError where
  | authenticationFailed (message : String)
  | rateLimited (message : String)
  | upstreamRequestFailed (message : String)
  deriving DecidableEq, Repr

/-- Model of `PixabayClient.safeReadError`: the trimmed body text when it is
readable and non-blank, else the status text. A `none` body models a read
failure. -/
def safeReadError (bodyText : Option String) (statusText : String) : String :=
  match bodyText with
  | some text => if jsTrim text = "" then statusText else jsTrim text
  | none => statusText

/-- Model of `PixabayClient.throwForErrorResponse`: the error thrown for a
non-success response. -/
def throwForErrorResponse (status : Nat) (bodyText : Option String)
    (statusText : String) : PixabayError :=
  let message := safeReadError bodyText statusText
  if status = 401 ∨ status = 403 then
    PixabayError.authenticationFailed "Pixabay authentication failed. Verify PIXABAY_API_KEY."
  else if status = 429 then
    PixabayError.rateLimited "Pixabay rate limit exceeded. Please wait a moment before trying again."
  else
    PixabayError.upstreamRequestFailed
      ("Pixabay request failed (" ++ toString status ++ "): " ++ message)

/-- `response.ok`: HTTP status in the inclusive range 200–299. -/
def httpOk (status : Nat) : Bool :=
  200 ≤ status && status ≤ 299

/-! ## Tool input validation (`schemas.ts` / `index.ts`) -/

/-- Orientation values of `searchImagesInputSchema`. -/
inductive Orientation where
  | all | horizontal | vertical
  deriving DecidableEq, Repr

/-- A validated tool input (`SearchImagesInput`). The validated `query` is
the trimmed string produced by zod's `.trim()` transform. -/
structure SearchImagesInput where
  query : String
  orientation : Option Orientation
  safesearch : Option Bool
  per_page : Option Int
  deriving DecidableEq, Repr

/-- An untyped tool-call payload: the recognized keys with raw JSON values
(`none` for absent) plus the names of any unrecognized keys. -/
structure RawPayload where
  query : Option Json
  orientation : Option Json
  safesearch : Option Json
  per_page : Option Json
  extraKeys : List String

/-- Name of a JSON value's type as zod reports it. -/
def jsonTypeName : Json → String
  | Json.null => "null"
  | Json.bool _ => "boolean"
  | Json.num _ => "number"
  | Json.str _ => "string"
  | Json.arr _ => "array"
  | Json.obj _ => "object"

/-- Issue messages of the `query` field: required string, trimmed, length
between 1 and 100 with the configured custom messages. -/
def queryIssues (v : Option Json) : List String :=
  match v with
  | none => ["Required"]
  | some (Json.str s) =>
    (if (jsTrim s).length < 1 then ["Please provide a search query."] else []) ++
    (if (jsTrim s).length > 100 then ["Queries must be 100 characters or fewer."] else [])
  | some j => ["Expected string, received " ++ jsonTypeName j]

/-- Issue messages of the optional `orientation` enum field. -/
def orientationIssues (v : Option Json) : List String :=
  match v with
  | none => []
  | some (Json.str s) =>
    if s = "all" || s = "horizontal" || s = "vertical" then [] else ["Invalid enum value"]
  | some _ => ["Invalid enum value"]

/-- Issue messages of the optional boolean `safesearch` field. -/
def safesearchIssues (v : Option Json) : List String :=
  match v with
  | none => []
  | some (Json.bool _) => []
  | some j => ["Expected boolean, received " ++ jsonTypeName j]

/-- Issue messages of the optional `per_page` field: an integer between 3
and 20 (`serverConfig.maxPerPage`), with the configured custom messages. -/
def perPageIssues (v : Option Json) : List String :=
  match v with
  | none => []
  | some (Json.num q) =>
    (if q.den = 1 then [] else ["Expected integer, received float"]) ++
    (if q < 3 then ["per_page must be between 3 and 20."] else []) ++
    (if q > 20 then ["per_page must be between 3 and 20."] else [])
  | some j => ["Expected number, received " ++ jsonTypeName j]

/-- Issue message of the `.strict()` unknown-keys check. -/
def strictIssues (extraKeys : List String) : List String :=
  match extraKeys with
  | [] => []
  | keys => ["Unrecognized key(s) in object: " ++ String.intercalate ", " keys]

/-- All issue messages of `searchImagesInputSchema.safeParse`, in field
order followed by the strict-keys check. -/
def searchImagesIssues (p : RawPayload) : List String :=
  queryIssues p.query ++ orientationIssues p.orientation ++
    safesearchIssues p.safesearch ++ perPageIssues p.per_page ++
    strictIssues p.extraKeys

/-- The validated orientation value (defined on inputs with no issues). -/
def orientationValue (v : Option Json) : Option Orientation :=
  match v with
  | some (Json.str s) =>
    if s = "horizontal" then some Orientation.horizontal
    else if s = "vertical" then some Orientation.vertical
    else if s = "all" then some Orientation.all
    else none
  | _ => none

/-- The validated safesearch value (defined on inputs with no issues). -/
def safesearchValue (v : Option Json) : Option Bool :=
  match v with
  | some (Json.bool b) => some b
  | _ => none

/-- The validated per_page value (defined on inputs with no issues). -/
def perPageValue (v : Option Json) : Option Int :=
  match v with
  | some (Json.num q) => some q.num
  | _ => none

/-- Model of `searchImagesInputSchema.safeParse`: collect every issue; with
no issues produce the typed input, with the query trimmed by the `.trim()`
transform. (An issue-free payload always carries a string `query`, so the
non-string inner fallback is unreachable.) -/
def searchImagesSafeParse (p : RawPayload) : Except (List String) SearchImagesInput :=
  if searchImagesIssues p = [] then
    match p.query with
    | some (Json.str s) =>
      Except.ok
        { query := jsTrim s
          orientation := orientationValue p.orientation
          safesearch := safesearchValue p.safesearch
          per_page := perPageValue p.per_page }
    | _ => Except.error ["Required"]
  else Except.error (searchImagesIssues p)

/-! ## Query normalization (`index.ts`) -/

/-- Model of `normalizeQuery` from `index.ts`: trim; for a bracket-delimited
string attempt `JSON.parse`, recovering a parsed plain string (trimmed,
falling back to the original argument when blank) or the trimmed non-blank
`query` field of a parsed object; otherwise return the trimmed input. -/
def normalizeQuery (query : String) : String :=
  let trimmed := jsTrim query
  if trimmed = "" then query
  else if (strStartsWith trimmed "\x7b" && strEndsWith trimmed "\x7d") ||
      (strStartsWith trimmed "[" && strEndsWith trimmed "]") then
    match jsonParse trimmed with
    | some (Json.str s) => if jsTrim s = "" then query else jsTrim s
    | some (Json.obj fields) =>
      match lookupLast fields "query" with
      | some (Json.str nested) =>
        if (jsTrim nested).length > 0 then jsTrim nested else trimmed
      | _ => trimmed
    | _ => trimmed
  else trimmed

/-! ## Result presentation (`index.ts`, image-only variant) -/

/-- The structured payload of the image-only tool (`ImageSearchStructuredContent`). -/
structure ImageSearchStructuredContent where
  query : String
  resultCount : Nat
  results : List ImageResult
  attribution : String
  deriving DecidableEq, Repr

/-- Model of `toStructuredContent` from the image-only `index.ts`. -/
def toStructuredContent (input : SearchImagesInput) (results : List ImageResult) :
    ImageSearchStructuredContent :=
  { query := input.query
    resultCount := results.length
    results
    attribution := "Images provided by Pixabay under the Pixabay License." }

/-- The one-line summary of the image-only tool handler. -/
def buildImageSummary (sc : ImageSearchStructuredContent) : String :=
  if sc.resultCount > 0 then
    "Found " ++ toString sc.resultCount ++ " Pixabay image" ++
      (if sc.resultCount = 1 then "" else "s") ++ " for \"" ++ sc.query ++ "\"."
  else
    "No Pixabay images found for \"" ++ sc.query ++ "\". Try a different description or add more detail."

/-- The text-and-structured response of a successful tool invocation. -/
structure ToolResponse where
  summary : String
  structuredContent : ImageSearchStructuredContent
  deriving DecidableEq, Repr

/-- Model of the `search_pixabay_images` handler of the image-only
`index.ts`: validate (joining all issue messages on failure, before any
upstream request), normalize the query, run the upstream search (abstracted
as `fetchResults`), and assemble summary plus structured content. -/
def imageToolHandler (p : RawPayload)
    (fetchResults : SearchImagesInput → List ImageResult) : Except String ToolResponse :=
  match searchImagesSafeParse p with
  | Except.error issues => Except.error (String.intercalate "; " issues)
  | Except.ok input =>
    let normalizedInput := { input with query := normalizeQuery input.query }
    let results := fetchResults normalizedInput
    let structuredContent := toStructuredContent normalizedInput results
    Except.ok
      { summary := buildImageSummary structuredContent
        structuredContent }

/-! ## Helper lemmas: trimming -/

theorem head?_dropWhile_false (p : Char → Bool) (l : List Char) (c : Char)
    (h : (l.dropWhile p).head? = some c) : p c = false := by
  have hm := List.head?_dropWhile_not p l
  rw [h] at hm
  exact hm

theorem dropWhile_eq_self_of_head? (p : Char → Bool) (l : List Char)
    (h : ∀ c, l.head? = some c → p c = false) : l.dropWhile p = l := by
  cases l with
  | nil => rfl
  | cons a t =>
    rw [List.dropWhile_cons, h a rfl]
    simp

theorem getLast?_dropWhile_of_ne_nil (p : Char → Bool) (l : List Char)
    (h : l.dropWhile p ≠ []) : (l.dropWhile p).getLast? = l.getLast? := by
  obtain ⟨pre, hpre⟩ := List.dropWhile_suffix (l := l) p
  conv_rhs => rw [← hpre]
  rw [List.getLast?_append_of_ne_nil pre h]

theorem trimCharList_idem (cs : List Char) :
    trimCharList (trimCharList cs) = trimCharList cs := by
  have hstep1 :
      (trimCharList cs).dropWhile isJsWhitespace = trimCharList cs := by
    apply dropWhile_eq_self_of_head?
    intro c hc
    rw [trimCharList, List.head?_reverse] at hc
    have hne : ((cs.dropWhile isJsWhitespace).reverse.dropWhile isJsWhitespace) ≠ [] := by
      intro h0
      rw [h0] at hc
      simp at hc
    rw [getLast?_dropWhile_of_ne_nil _ _ hne, List.getLast?_reverse] at hc
    exact head?_dropWhile_false isJsWhitespace cs c hc
  have hstep2 :
      ((cs.dropWhile isJsWhitespace).reverse.dropWhile isJsWhitespace).dropWhile
        isJsWhitespace =
      (cs.dropWhile isJsWhitespace).reverse.dropWhile isJsWhitespace := by
    apply dropWhile_eq_self_of_head?
    intro c hc
    exact head?_dropWhile_false isJsWhitespace _ c hc
  conv_lhs => rw [trimCharList, hstep1]
  rw [trimCharList, List.reverse_reverse, hstep2]

theorem jsTrim_idem (s : String) : jsTrim (jsTrim s) = jsTrim s := by
  show String.mk (trimCharList (String.mk (trimCharList s.data)).data) = _
  rw [show (String.mk (trimCharList s.data)).data = trimCharList s.data from rfl,
    trimCharList_idem]
  rfl

/-! ## Helper lemmas: URL sanitizing -/

theorem sanitizeUrl_some_elim (v u : String) (h : sanitizeUrl (some v) = some u) :
    u = jsTrim v ∧ isHttpUrl u = true := by
  rw [sanitizeUrl] at h
  by_cases h1 : v = ""
  · rw [if_pos h1] at h
    exact absurd h (by simp)
  · rw [if_neg h1] at h
    by_cases h2 : jsTrim v = ""
    · rw [if_pos h2] at h
      exact absurd h (by simp)
    · rw [if_neg h2] at h
      by_cases h3 : isHttpUrl (jsTrim v) = true
      · rw [if_pos h3] at h
        cases h
        exact ⟨rfl, h3⟩
      · rw [if_neg h3] at h
        exact absurd h (by simp)

theorem sanitizeUrl_isSome_elim (v : String)
    (h : (sanitizeUrl (some v)).isSome = true) :
    sanitizeUrl (some v) = some (jsTrim v) := by
  cases hu : sanitizeUrl (some v) with
  | none => rw [hu] at h; simp at h
  | some u =>
    obtain ⟨h1, _⟩ := sanitizeUrl_some_elim v u hu
    rw [h1]

theorem sanitizeUrl_trim_fixpoint (v u : String) (h : sanitizeUrl (some v) = some u) :
    u = jsTrim u ∧ isHttpUrl u = true := by
  obtain ⟨h1, h2⟩ := sanitizeUrl_some_elim v u h
  refine ⟨?_, h2⟩
  rw [h1, jsTrim_idem]

/-! ## Helper lemmas: rendition selection loops -/

theorem pickFromOrder_eq_findSome? (keys : List RenditionKey) (vs : VideoRenditions) :
    pickFromOrder keys vs =
      keys.findSome? (fun k => (vs.get k).bind
        (fun r => if (sanitizeUrl (some r.url)).isSome then some r else none)) := by
  induction keys with
  | nil => rfl
  | cons k ks ih =>
    cases hk : vs.get k with
    | none =>
      have h1 : pickFromOrder (k :: ks) vs = pickFromOrder ks vs := by
        rw [pickFromOrder, hk]
      have h2 :
          (k :: ks).findSome? (fun k => (vs.get k).bind
            (fun r => if (sanitizeUrl (some r.url)).isSome then some r else none)) =
          ks.findSome? (fun k => (vs.get k).bind
            (fun r => if (sanitizeUrl (some r.url)).isSome then some r else none)) := by
        simp only [List.findSome?_cons, hk, Option.none_bind]
      rw [h1, h2, ih]
    | some r =>
      have hstep :
          pickFromOrder (k :: ks) vs =
            (if (sanitizeUrl (some r.url)).isSome then some r else pickFromOrder ks vs) := by
        rw [pickFromOrder, hk]
      by_cases hs : (sanitizeUrl (some r.url)).isSome = true
      · have h2 :
            (k :: ks).findSome? (fun k => (vs.get k).bind
              (fun r => if (sanitizeUrl (some r.url)).isSome then some r else none)) =
              some r := by
          simp only [List.findSome?_cons, hk, Option.some_bind, if_pos hs]
        rw [hstep, if_pos hs, h2]
      · have h2 :
            (k :: ks).findSome? (fun k => (vs.get k).bind
              (fun r => if (sanitizeUrl (some r.url)).isSome then some r else none)) =
            ks.findSome? (fun k => (vs.get k).bind
              (fun r => if (sanitizeUrl (some r.url)).isSome then some r else none)) := by
          simp only [List.findSome?_cons, hk, Option.some_bind, if_neg hs]
        rw [hstep, if_neg hs, h2, ih]

theorem pickFromOrder_qualifies (keys : List RenditionKey) (vs : VideoRenditions)
    (r : VideoRendition) (h : pickFromOrder keys vs = some r) :
    (sanitizeUrl (some r.url)).isSome = true := by
  induction keys with
  | nil => simp [pickFromOrder] at h
  | cons k ks ih =>
    rw [pickFromOrder] at h
    cases hk : vs.get k with
    | none => rw [hk] at h; exact ih h
    | some r2 =>
      rw [hk] at h
      have h2 :
          (if (sanitizeUrl (some r2.url)).isSome then some r2 else pickFromOrder ks vs) =
            some r := h
      by_cases hs : (sanitizeUrl (some r2.url)).isSome = true
      · rw [if_pos hs] at h2
        cases h2
        exact hs
      · rw [if_neg hs] at h2
        exact ih h2

theorem thumbnailFromOrder_eq_findSome? (keys : List RenditionKey) (vs : VideoRenditions) :
    thumbnailFromOrder keys vs =
      keys.findSome? (fun k => (vs.get k).bind (fun r => sanitizeUrl r.thumbnail)) := by
  induction keys with
  | nil => rfl
  | cons k ks ih =>
    cases hk : vs.get k with
    | none =>
      have h1 : thumbnailFromOrder (k :: ks) vs = thumbnailFromOrder ks vs := by
        rw [thumbnailFromOrder, hk]
      have h2 :
          (k :: ks).findSome? (fun k => (vs.get k).bind (fun r => sanitizeUrl r.thumbnail)) =
          ks.findSome? (fun k => (vs.get k).bind (fun r => sanitizeUrl r.thumbnail)) := by
        simp only [List.findSome?_cons, hk, Option.none_bind]
      rw [h1, h2, ih]
    | some r =>
      have hstep : thumbnailFromOrder (k :: ks) vs =
          (match sanitizeUrl r.thumbnail with
            | some t => some t
            | none => thumbnailFromOrder ks vs) := by
        rw [thumbnailFromOrder, hk]
      cases ht : sanitizeUrl r.thumbnail with
      | none =>
        have h2 :
            (k :: ks).findSome? (fun k => (vs.get k).bind (fun r => sanitizeUrl r.thumbnail)) =
            ks.findSome? (fun k => (vs.get k).bind (fun r => sanitizeUrl r.thumbnail)) := by
          simp only [List.findSome?_cons, hk, Option.some_bind, ht]
        rw [hstep, ht, h2, ih]
      | some t =>
        have h2 :
            (k :: ks).findSome? (fun k => (vs.get k).bind (fun r => sanitizeUrl r.thumbnail)) =
              some t := by
          simp only [List.findSome?_cons, hk, Option.some_bind, ht]
        rw [hstep, ht, h2]

/-! ## Claim-side (declarative) video mapping -/

/-- Declarative reading of the claimed rendition selection: the first
rendition in the order medium, large, small, tiny whose URL sanitizes to an
absolute http(s) URL after trimming. -/
def firstQualifyingRendition (hit : PixabayVideoHit) : Option VideoRendition :=
  VIDEO_RENDITION_ORDER.findSome? (fun k => (hit.videos.get k).bind
    (fun r => if (sanitizeUrl (some r.url)).isSome then some r else none))

/-- Declarative reading of the claimed thumbnail resolution: the chosen
rendition's own thumbnail when it sanitizes, else the first sanitizing
thumbnail in the order medium, small, large, tiny, else `none`. -/
def claimedThumbnail (hit : PixabayVideoHit) (chosen : VideoRendition) : Option String :=
  match sanitizeUrl chosen.thumbnail with
  | some u => some u
  | none =>
    THUMBNAIL_RENDITION_ORDER.findSome? (fun k => (hit.videos.get k).bind
      (fun r => sanitizeUrl r.thumbnail))

/-- Declarative reading of the claimed per-hit video mapping: `none` drops
the hit, otherwise the emitted result uses the chosen rendition's trimmed
URL and the claimed preview thumbnail. -/
def claimedVideoResult (hit : PixabayVideoHit) : Option VideoResult :=
  (firstQualifyingRendition hit).map
    (fun r => mkVideoResult hit r (jsTrim r.url) (claimedThumbnail hit r))

/-- The video result loop with the post-selection sanitize drop branch
removed: the picked rendition's sanitized URL is used directly (with an
arbitrary default that the removed branch would have needed). -/
def mapVideoHitsNoUrlCheck (hits : List PixabayVideoHit) : List VideoResult :=
  match hits with
  | [] => []
  | hit :: rest =>
    match pickVideoRendition hit with
    | none => mapVideoHitsNoUrlCheck rest
    | some rendition =>
      mkVideoResult hit rendition ((sanitizeUrl (some rendition.url)).getD "")
        (findThumbnail hit rendition.thumbnail) :: mapVideoHitsNoUrlCheck rest

/-- C1, claim theorem: the video response mapping equals, hit by hit and in
order, the declarative mapping that picks the first rendition in the order
medium, large, small, tiny whose URL sanitizes (trimmed absolute http(s)),
drops hits with no qualifying rendition, and resolves the preview thumbnail
from the chosen rendition's own thumbnail, else the rendition order medium,
small, large, tiny, else null. -/
theorem claim1_video_rendition_selection (hits : List PixabayVideoHit) :
    mapVideoHits hits = hits.filterMap claimedVideoResult := by
  induction hits with
  | nil => rfl
  | cons hit rest ih =>
    have hpick : pickVideoRendition hit = firstQualifyingRendition hit :=
      pickFromOrder_eq_findSome? VIDEO_RENDITION_ORDER hit.videos
    rw [List.filterMap_cons]
    cases hp : pickVideoRendition hit with
    | none =>
      have hclaimed : claimedVideoResult hit = none := by
        rw [claimedVideoResult, ← hpick, hp, Option.map_none']
      have hstep : mapVideoHits (hit :: rest) = mapVideoHits rest := by
        rw [mapVideoHits, hp]
      rw [hclaimed, hstep, ih]
    | some r =>
      have hq : (sanitizeUrl (some r.url)).isSome = true :=
        pickFromOrder_qualifies VIDEO_RENDITION_ORDER hit.videos r hp
      have hsan : sanitizeUrl (some r.url) = some (jsTrim r.url) :=
        sanitizeUrl_isSome_elim r.url hq
      have hthumb : findThumbnail hit r.thumbnail = claimedThumbnail hit r := by
        rw [findThumbnail, claimedThumbnail,
          thumbnailFromOrder_eq_findSome? THUMBNAIL_RENDITION_ORDER hit.videos]
      have hclaimed :
          claimedVideoResult hit =
            some (mkVideoResult hit r (jsTrim r.url) (claimedThumbnail hit r)) := by
        rw [claimedVideoResult, ← hpick, hp, Option.map_some']
      have hstep : mapVideoHits (hit :: rest) =
          (match sanitizeUrl (some r.url) with
            | none => mapVideoHits rest
            | some videoUrl =>
              mkVideoResult hit r videoUrl (findThumbnail hit r.thumbnail)
                :: mapVideoHits rest) := by
        rw [mapVideoHits, hp]
      rw [hclaimed, hstep, hsan, hthumb, ih]

/-- C10, claim theorem: whenever rendition selection returns a rendition,
sanitizing its URL again succeeds; hence the drop branch guarding a null
sanitized video URL in the `searchVideos` loop is unreachable (removing it
does not change the mapping), and every emitted video result carries a
trimmed absolute http(s) `videoUrl`. -/
theorem claim10_sanitize_recheck_unreachable :
    (∀ (hit : PixabayVideoHit) (r : VideoRendition),
      pickVideoRendition hit = some r →
        sanitizeUrl (some r.url) = some (jsTrim r.url)) ∧
    (∀ hits : List PixabayVideoHit, mapVideoHits hits = mapVideoHitsNoUrlCheck hits) ∧
    (∀ (hits : List PixabayVideoHit) (res : VideoResult), res ∈ mapVideoHits hits →
      res.videoUrl = jsTrim res.videoUrl ∧ isHttpUrl res.videoUrl = true) := by
  have hq : ∀ (hit : PixabayVideoHit) (r : VideoRendition),
      pickVideoRendition hit = some r →
        sanitizeUrl (some r.url) = some (jsTrim r.url) := by
    intro hit r hp
    exact sanitizeUrl_isSome_elim r.url
      (pickFromOrder_qualifies VIDEO_RENDITION_ORDER hit.videos r hp)
  refine ⟨hq, ?_, ?_⟩
  · intro hits
    induction hits with
    | nil => rfl
    | cons hit rest ih =>
      cases hp : pickVideoRendition hit with
      | none =>
        have hstepL : mapVideoHits (hit :: rest) = mapVideoHits rest := by
          rw [mapVideoHits, hp]
        have hstepR : mapVideoHitsNoUrlCheck (hit :: rest) = mapVideoHitsNoUrlCheck rest := by
          rw [mapVideoHitsNoUrlCheck, hp]
        rw [hstepL, hstepR, ih]
      | some r =>
        have hstepL : mapVideoHits (hit :: rest) =
            (match sanitizeUrl (some r.url) with
              | none => mapVideoHits rest
              | some videoUrl =>
                mkVideoResult hit r videoUrl (findThumbnail hit r.thumbnail)
                  :: mapVideoHits rest) := by
          rw [mapVideoHits, hp]
        have hstepR : mapVideoHitsNoUrlCheck (hit :: rest) =
            mkVideoResult hit r ((sanitizeUrl (some r.url)).getD "")
              (findThumbnail hit r.thumbnail) :: mapVideoHitsNoUrlCheck rest := by
          rw [mapVideoHitsNoUrlCheck, hp]
        rw [hstepL, hstepR, hq hit r hp, ih]
        rfl
  · intro hits res hmem
    induction hits with
    | nil => simp [mapVideoHits] at hmem
    | cons hit rest ih =>
      cases hp : pickVideoRendition hit with
      | none =>
        have hmem2 : res ∈ mapVideoHits rest := by
          rw [mapVideoHits, hp] at hmem
          exact hmem
        exact ih hmem2
      | some r =>
        have hmem2 : res ∈
            (match sanitizeUrl (some r.url) with
              | none => mapVideoHits rest
              | some videoUrl =>
                mkVideoResult hit r videoUrl (findThumbnail hit r.thumbnail)
                  :: mapVideoHits rest) := by
          rw [mapVideoHits, hp] at hmem
          exact hmem
        rw [hq hit r hp] at hmem2
        have hmem3 :
            res = mkVideoResult hit r (jsTrim r.url) (findThumbnail hit r.thumbnail) ∨
              res ∈ mapVideoHits rest := by
          simpa using hmem2
        cases hmem3 with
        | inl heq =>
          have hurl : res.videoUrl = jsTrim r.url := by
            rw [heq]
            rfl
          constructor
          · rw [hurl, jsTrim_idem]
          · rw [hurl]
            obtain ⟨-, hhttp⟩ := sanitizeUrl_some_elim r.url _ (hq hit r hp)
            exact hhttp
        | inr hmem4 => exact ih hmem4

/-- Concrete rendition instantiating the C10 theorem. -/
def witnessRendition : VideoRendition :=
  { url := "https://cdn.example.com/video.mp4"
    width := 1920
    height := 1080
    size := none
    thumbnail := none }

/-- Concrete video hit (only a medium rendition) instantiating the C10
theorem. -/
def witnessVideoHit : PixabayVideoHit :=
  { id := 1
    pageURL := "https://pixabay.com/videos/id-1/"
    tags := "nature, sunset"
    duration := 10
    type := "film"
    videos := { large := none, medium := some witnessRendition, small := none, tiny := none }
    user := "alice"
    user_id := 2
    userImageURL := none
    views := none
    downloads := none
    likes := none }

/-- C10, witness: the selection hypothesis holds at the concrete hit, and
re-sanitizing the selected URL indeed succeeds. -/
theorem claim10_witness :
    pickVideoRendition witnessVideoHit = some witnessRendition ∧
    sanitizeUrl (some witnessRendition.url) = some (jsTrim witnessRendition.url) :=
  ⟨rfl, claim10_sanitize_recheck_unreachable.1 witnessVideoHit witnessRendition rfl⟩

/-- C2, claim theorem: image hits failing validation are silently dropped:
the mapped results are exactly the in-order mapping of the surviving hits,
the result count plus the invalid-hit count is the raw-hit count (so the
count decreases by exactly the number of invalid hits), and the mapping is
total (no invocation-level error: it returns a plain list for every input,
for every url well-formedness predicate). -/
theorem filterMap_length_add_countP_none (urlOk : String → Bool) (hits : List Json) :
    (hits.filterMap (fun h => (parseImageHit urlOk h).map imageHitToResult)).length +
      hits.countP (fun h => (parseImageHit urlOk h).isNone) = hits.length := by
  induction hits with
  | nil => rfl
  | cons h t ih =>
    rw [List.countP_cons, List.filterMap_cons]
    cases hp : parseImageHit urlOk h with
    | none =>
      simp [hp]
      omega
    | some ph =>
      simp [hp]
      omega

theorem claim2_invalid_hits_dropped (urlOk : String → Bool) (hits : List Json) :
    searchImagesResults urlOk hits =
      hits.filterMap (fun h => (parseImageHit urlOk h).map imageHitToResult) ∧
    (searchImagesResults urlOk hits).length +
      hits.countP (fun h => (parseImageHit urlOk h).isNone) = hits.length ∧
    (searchImagesResults urlOk hits).length =
      hits.length - hits.countP (fun h => (parseImageHit urlOk h).isNone) := by
  have h1 : searchImagesResults urlOk hits =
      hits.filterMap (fun h => (parseImageHit urlOk h).map imageHitToResult) := by
    rw [searchImagesResults, parseImageHits, List.map_filterMap]
  have hlen := filterMap_length_add_countP_none urlOk hits
  refine ⟨h1, ?_, ?_⟩
  · rw [h1]
    exact hlen
  · rw [h1]
    omega

/-- C8, claim theorem: for an upstream response body (a JSON object), the
reported `totalHits` is the body's `totalHits` field whenever that field is
present and non-null, and otherwise the number of surviving mapped results;
on both the image and the video search paths. -/
theorem claim8_totalhits_fallback (urlOk : String → Bool)
    (fields : List (String × Json)) :
    (∀ v : Json, lookupLast fields "totalHits" = some v → v ≠ Json.null →
      (searchImagesFromBody urlOk (Json.obj fields)).totalHits = v ∧
      (searchVideosFromBody urlOk (Json.obj fields)).totalHits = v) ∧
    ((lookupLast fields "totalHits" = none ∨
        lookupLast fields "totalHits" = some Json.null) →
      (searchImagesFromBody urlOk (Json.obj fields)).totalHits =
        Json.num ((searchImagesFromBody urlOk (Json.obj fields)).results.length) ∧
      (searchVideosFromBody urlOk (Json.obj fields)).totalHits =
        Json.num ((searchVideosFromBody urlOk (Json.obj fields)).results.length)) := by
  have hj : jsonFieldLast (Json.obj fields) "totalHits" = lookupLast fields "totalHits" := rfl
  have hsome : ∀ (n : Nat) (v : Json), lookupLast fields "totalHits" = some v →
      v ≠ Json.null → coalesceTotalHits (Json.obj fields) n = v := by
    intro n v hv hne
    rw [coalesceTotalHits, hj, hv]
    cases v with
    | null => exact absurd rfl hne
    | bool b => rfl
    | num q => rfl
    | str s => rfl
    | arr es => rfl
    | obj fs => rfl
  have hfall : ∀ n : Nat,
      (lookupLast fields "totalHits" = none ∨
        lookupLast fields "totalHits" = some Json.null) →
      coalesceTotalHits (Json.obj fields) n = Json.num n := by
    intro n hv
    cases hv with
    | inl hnone => rw [coalesceTotalHits, hj, hnone]
    | inr hnull => rw [coalesceTotalHits, hj, hnull]
  constructor
  · intro v hv hne
    exact ⟨hsome _ v hv hne, hsome _ v hv hne⟩
  · intro hv
    exact ⟨hfall _ hv, hfall _ hv⟩

/-- C8, witness: a body carrying `totalHits = 120` reports 120; a body with
no `totalHits` field reports the surviving-result count. -/
theorem claim8_witness :
    (searchImagesFromBody (fun _ => true)
      (Json.obj [("totalHits", Json.num 120)])).totalHits = Json.num 120 ∧
    (searchImagesFromBody (fun _ => true)
      (Json.obj [("hits", Json.arr [])])).totalHits =
      Json.num ((searchImagesFromBody (fun _ => true)
        (Json.obj [("hits", Json.arr [])])).results.length) :=
  ⟨((claim8_totalhits_fallback (fun _ => true) [("totalHits", Json.num 120)]).1
      (Json.num 120) rfl (fun h => Json.noConfusion h)).1,
    ((claim8_totalhits_fallback (fun _ => true) [("hits", Json.arr [])]).2
      (Or.inl rfl)).1⟩

/-- C5, claim theorem: locale resolution is total and equals the lower-cased
primary subtag when that subtag is in the supported set, and the default
locale `"en"` otherwise (including the empty and missing locale); in
particular `"pt-BR"` resolves to `"pt"` and `"xx-YY"` to `"en"`. -/
theorem claim5_locale_resolution :
    (∀ locale : Option String,
      resolveLanguage locale =
        (if SUPPORTED_LANGS.contains (asciiLower (primarySubtag (locale.getD ""))) then
          asciiLower (primarySubtag (locale.getD ""))
        else defaultLocale)) ∧
    resolveLanguage (some "pt-BR") = "pt" ∧
    resolveLanguage (some "xx-YY") = "en" := by
  refine ⟨?_, rfl, rfl⟩
  intro locale
  cases locale with
  | none => rfl
  | some l =>
    have hg : (some l).getD "" = l := rfl
    rw [hg]
    have hL : resolveLanguage (some l) =
        (if l = "" then defaultLocale
        else
          if asciiLower (primarySubtag l) ≠ "" &&
              SUPPORTED_LANGS.contains (asciiLower (primarySubtag l)) then
            asciiLower (primarySubtag l)
          else defaultLocale) := rfl
    by_cases hempty : l = ""
    · subst hempty
      rfl
    · rw [hL, if_neg hempty]
      by_cases hcand : asciiLower (primarySubtag l) = ""
      · rw [hcand]
        rfl
      · simp only [ne_eq, hcand, not_false_eq_true, decide_True, Bool.true_and]

/-- C6, claim theorem (amended): a non-success response classifies as
exactly one of the three errors: 401/403 to `authenticationFailed` with the
fixed message `Pixabay authentication failed. Verify PIXABAY_API_KEY.`,
429 to `rateLimited` with the fixed rate-limit message regardless of body,
and any other non-success status to `upstreamRequestFailed` carrying the
status code and the best-effort body text (the status line when the body is
unreadable or blank). -/
theorem claim6_error_classifier (status : Nat) (bodyText : Option String)
    (statusText : String) (hok : httpOk status = false) :
    ((status = 401 ∨ status = 403) →
      throwForErrorResponse status bodyText statusText =
        PixabayError.authenticationFailed
          "Pixabay authentication failed. Verify PIXABAY_API_KEY.") ∧
    (status = 429 →
      throwForErrorResponse status bodyText statusText =
        PixabayError.rateLimited
          "Pixabay rate limit exceeded. Please wait a moment before trying again.") ∧
    (¬ (status = 401 ∨ status = 403) → status ≠ 429 →
      throwForErrorResponse status bodyText statusText =
        PixabayError.upstreamRequestFailed
          ("Pixabay request failed (" ++ toString status ++ "): " ++
            safeReadError bodyText statusText)) ∧
    (∀ text, bodyText = some text → jsTrim text ≠ "" →
      safeReadError bodyText statusText = jsTrim text) ∧
    (∀ text, bodyText = some text → jsTrim text = "" →
      safeReadError bodyText statusText = statusText) ∧
    (bodyText = none → safeReadError bodyText statusText = statusText) := by
  refine ⟨?_, ?_, ?_, ?_, ?_, ?_⟩
  · intro h
    rw [throwForErrorResponse, if_pos h]
  · intro h
    subst h
    rfl
  · intro h1 h2
    rw [throwForErrorResponse, if_neg h1, if_neg h2]
  · intro t ht hne
    subst ht
    show (if jsTrim t = "" then statusText else jsTrim t) = jsTrim t
    rw [if_neg hne]
  · intro t ht he
    subst ht
    show (if jsTrim t = "" then statusText else jsTrim t) = statusText
    rw [if_pos he]
  · intro h
    subst h
    rfl

/-- C6, counterexample to the claim as stated: the authentication message
produced by the code names `PIXABAY_API_KEY` and differs from the claimed
message `Pixabay authentication failed. Verify the API key.`. -/
theorem claim6_counterexample :
    throwForErrorResponse 401 (some "denied") "Unauthorized" =
      PixabayError.authenticationFailed
        "Pixabay authentication failed. Verify PIXABAY_API_KEY." ∧
    PixabayError.authenticationFailed
        "Pixabay authentication failed. Verify PIXABAY_API_KEY." ≠
      PixabayError.authenticationFailed
        "Pixabay authentication failed. Verify the API key." :=
  ⟨rfl, by decide⟩

/-- C6, witness: the amended classification applied at statuses 500, 401 and
429 with concrete bodies. -/
theorem claim6_witness :
    throwForErrorResponse 500 (some " upstream exploded ") "Internal Server Error" =
      PixabayError.upstreamRequestFailed "Pixabay request failed (500): upstream exploded" ∧
    throwForErrorResponse 401 none "Unauthorized" =
      PixabayError.authenticationFailed
        "Pixabay authentication failed. Verify PIXABAY_API_KEY." ∧
    throwForErrorResponse 429 (some "slow down") "Too Many Requests" =
      PixabayError.rateLimited
        "Pixabay rate limit exceeded. Please wait a moment before trying again." :=
  ⟨((claim6_error_classifier 500 (some " upstream exploded ") "Internal Server Error"
        rfl).2.2.1 (by decide) (by decide)).trans rfl,
    (claim6_error_classifier 401 none "Unauthorized" rfl).1 (Or.inl rfl),
    (claim6_error_classifier 429 (some "slow down") "Too Many Requests" rfl).2.1 rfl⟩

/-- C7, claim theorem: the image-only summary depends only on the result
count and the query; with a positive count it is
`Found N Pixabay image(s) for "<query>".` with the singular exactly at one
result, and with zero results it is the fixed not-found sentence. -/
theorem claim7_image_summary (sc : ImageSearchStructuredContent) :
    (∀ sc2 : ImageSearchStructuredContent,
      sc.resultCount = sc2.resultCount → sc.query = sc2.query →
        buildImageSummary sc = buildImageSummary sc2) ∧
    (0 < sc.resultCount →
      buildImageSummary sc =
        "Found " ++ toString sc.resultCount ++ " Pixabay image" ++
          (if sc.resultCount = 1 then "" else "s") ++ " for \"" ++ sc.query ++ "\".") ∧
    (sc.resultCount = 0 →
      buildImageSummary sc =
        "No Pixabay images found for \"" ++ sc.query ++
          "\". Try a different description or add more detail.") := by
  refine ⟨?_, ?_, ?_⟩
  · intro sc2 h1 h2
    rw [buildImageSummary, buildImageSummary, h1, h2]
  · intro h
    rw [buildImageSummary, if_pos h]
  · intro h
    rw [buildImageSummary, if_neg (by omega)]

/-- Concrete image result instantiating the C7 witness. -/
def witnessImageResult : ImageResult :=
  { id := 7
    previewUrl := "https://cdn.example.com/p.jpg"
    pageUrl := "https://pixabay.com/photos/7/"
    imageUrl := "https://cdn.example.com/w.jpg"
    imageWidth := 640
    imageHeight := 480
    tags := ["sunset"]
    photographer := { name := "alice", profileUrl := "https://pixabay.com/users/alice-2/" }
    likes := 3
    downloads := 4 }

/-- Structured content of a stubbed search returning three results for the
query `sunset`. -/
def witnessStructuredContent : ImageSearchStructuredContent :=
  toStructuredContent
    { query := "sunset", orientation := none, safesearch := none, per_page := none }
    [witnessImageResult, witnessImageResult, witnessImageResult]

/-- C7, witness: three surviving results for `sunset` produce the claimed
summary line. -/
theorem claim7_witness :
    buildImageSummary witnessStructuredContent = "Found 3 Pixabay images for \"sunset\"." :=
  ((claim7_image_summary witnessStructuredContent).2.1 (by decide)).trans rfl

/-! ## Parser shape lemmas and the bracket guard -/

/-- The guard of `normalizeQuery`: the string looks like a JSON object or
array (matching bracket delimiters). -/
def bracketDelimited (s : String) : Bool :=
  (strStartsWith s "\x7b" && strEndsWith s "\x7d") ||
  (strStartsWith s "[" && strEndsWith s "]")

theorem strStartsWith_cons_elim (s : String) (c : Char) (pre : String)
    (hpre : pre.data = [c]) (h : strStartsWith s pre = true) :
    ∃ t, s.data = c :: t := by
  rw [strStartsWith, hpre] at h
  cases hd : s.data with
  | nil =>
    rw [hd] at h
    simp [List.isPrefixOf] at h
  | cons b t =>
    rw [hd] at h
    have h2 : (c == b && List.isPrefixOf [] t) = true := h
    have h3 : c = b := by
      have := (Bool.and_eq_true _ _).mp h2
      simpa using this.1
    exact ⟨t, by rw [h3]⟩

theorem parseObjectRest_shape (fuel : Nat) (cs : List Char) (v : Json) (r : List Char)
    (h : parseObjectRest fuel cs = some (v, r)) : ∃ fs, v = Json.obj fs := by
  cases fuel with
  | zero => exact absurd h (by simp [parseObjectRest])
  | succ fuel =>
    rw [parseObjectRest] at h
    split at h
    · cases h
      exact ⟨[], rfl⟩
    · rw [Option.map_eq_some'] at h
      obtain ⟨p, -, hp2⟩ := h
      rw [Prod.mk.injEq] at hp2
      exact ⟨p.1, hp2.1.symm⟩

theorem parseArrayRest_shape (fuel : Nat) (cs : List Char) (v : Json) (r : List Char)
    (h : parseArrayRest fuel cs = some (v, r)) : ∃ es, v = Json.arr es := by
  cases fuel with
  | zero => exact absurd h (by simp [parseArrayRest])
  | succ fuel =>
    rw [parseArrayRest] at h
    split at h
    · cases h
      exact ⟨[], rfl⟩
    · rw [Option.map_eq_some'] at h
      obtain ⟨p, -, hp2⟩ := h
      rw [Prod.mk.injEq] at hp2
      exact ⟨p.1, hp2.1.symm⟩

theorem parseValue_shape_lbrace (fuel : Nat) (t : List Char) (v : Json) (r : List Char)
    (h : parseValue fuel ('{' :: t) = some (v, r)) : ∃ fs, v = Json.obj fs := by
  cases fuel with
  | zero => exact absurd h (by simp [parseValue])
  | succ fuel =>
    have h2 : parseObjectRest fuel t = some (v, r) := h
    exact parseObjectRest_shape fuel t v r h2

theorem parseValue_shape_lbracket (fuel : Nat) (t : List Char) (v : Json) (r : List Char)
    (h : parseValue fuel ('[' :: t) = some (v, r)) : ∃ es, v = Json.arr es := by
  cases fuel with
  | zero => exact absurd h (by simp [parseValue])
  | succ fuel =>
    have h2 : parseArrayRest fuel t = some (v, r) := h
    exact parseArrayRest_shape fuel t v r h2

/-- A successfully parsed document whose first character is an opening brace
or bracket denotes an object or an array, never any other value shape. -/
theorem jsonParse_not_str_of_bracket (s : String) (v : Json)
    (hbr : bracketDelimited s = true) (h : jsonParse s = some v) :
    ∀ u, v ≠ Json.str u := by
  intro u hvu
  subst hvu
  rw [jsonParse] at h
  split at h
  case h_2 => exact Option.noConfusion h
  case h_1 v0 rest heq =>
    split at h
    case isFalse => exact Option.noConfusion h
    case isTrue =>
      cases h
      rw [bracketDelimited] at hbr
      rcases (Bool.or_eq_true _ _).mp hbr with hco | hco
      · obtain ⟨hstart, -⟩ := (Bool.and_eq_true _ _).mp hco
        obtain ⟨t, ht⟩ := strStartsWith_cons_elim s '{' "\x7b" rfl hstart
        rw [ht] at heq
        obtain ⟨fs, hfs⟩ := parseValue_shape_lbrace _ t _ rest heq
        exact Json.noConfusion hfs
      · obtain ⟨hstart, -⟩ := (Bool.and_eq_true _ _).mp hco
        obtain ⟨t, ht⟩ := strStartsWith_cons_elim s '[' "[" rfl hstart
        rw [ht] at heq
        obtain ⟨es, hes⟩ := parseValue_shape_lbracket _ t _ rest heq
        exact Json.noConfusion hes

/-- `normalizeQuery` with the plain-string recovery branch deleted: a
bracket-guarded parse producing a string falls through to the trimmed
input like every other unexpected shape. -/
def normalizeQueryNoStringCase (query : String) : String :=
  let trimmed := jsTrim query
  if trimmed = "" then query
  else if (strStartsWith trimmed "\x7b" && strEndsWith trimmed "\x7d") ||
      (strStartsWith trimmed "[" && strEndsWith trimmed "]") then
    match jsonParse trimmed with
    | some (Json.obj fields) =>
      match lookupLast fields "query" with
      | some (Json.str nested) =>
        if (jsTrim nested).length > 0 then jsTrim nested else trimmed
      | _ => trimmed
    | _ => trimmed
  else trimmed

theorem normalizeQuery_guard_form (q : String) :
    normalizeQuery q =
      (if jsTrim q = "" then q
      else if bracketDelimited (jsTrim q) then
        match jsonParse (jsTrim q) with
        | some (Json.str s) => if jsTrim s = "" then q else jsTrim s
        | some (Json.obj fields) =>
          match lookupLast fields "query" with
          | some (Json.str nested) =>
            if (jsTrim nested).length > 0 then jsTrim nested else jsTrim q
          | _ => jsTrim q
        | _ => jsTrim q
      else jsTrim q) := rfl

theorem normalizeQueryNoStringCase_guard_form (q : String) :
    normalizeQueryNoStringCase q =
      (if jsTrim q = "" then q
      else if bracketDelimited (jsTrim q) then
        match jsonParse (jsTrim q) with
        | some (Json.obj fields) =>
          match lookupLast fields "query" with
          | some (Json.str nested) =>
            if (jsTrim nested).length > 0 then jsTrim nested else jsTrim q
          | _ => jsTrim q
        | _ => jsTrim q
      else jsTrim q) := rfl

/-- C9, claim theorem: under the bracket guard a successful parse can never
yield a plain string (a JSON document opening with a brace or bracket is an
object or array), so the `typeof parsed === "string"` recovery branch of
`normalizeQuery` never fires: deleting it leaves the function unchanged on
every input. -/
theorem claim9_string_branch_unreachable :
    (∀ (s : String) (v : Json), bracketDelimited s = true → jsonParse s = some v →
      ∀ u, v ≠ Json.str u) ∧
    (∀ q : String, normalizeQuery q = normalizeQueryNoStringCase q) := by
  refine ⟨jsonParse_not_str_of_bracket, ?_⟩
  intro q
  rw [normalizeQuery_guard_form, normalizeQueryNoStringCase_guard_form]
  by_cases h0 : jsTrim q = ""
  · rw [if_pos h0, if_pos h0]
  · rw [if_neg h0, if_neg h0]
    by_cases hbr : bracketDelimited (jsTrim q) = true
    · rw [if_pos hbr, if_pos hbr]
      cases hp : jsonParse (jsTrim q) with
      | none => rfl
      | some v =>
        cases v with
        | null => rfl
        | bool b => rfl
        | num n => rfl
        | arr es => rfl
        | str s =>
          exact absurd rfl (jsonParse_not_str_of_bracket (jsTrim q) (Json.str s) hbr hp s)
        | obj fields =>
          cases hl : lookupLast fields "query" with
          | none => rfl
          | some w => cases w <;> rfl
    · rw [if_neg hbr, if_neg hbr]

/-- C9, witness: the object document `\x7b\x7d` parses under the guard, and
the parsed value is indeed not a string. -/
theorem claim9_witness :
    jsonParse "\x7b\x7d" = some (Json.obj []) ∧
    Json.obj ([] : List (String × Json)) ≠ Json.str "x" :=
  ⟨rfl, claim9_string_branch_unreachable.1 "\x7b\x7d" (Json.obj []) rfl rfl "x"⟩

/-- The claimed object-shape recovery of query normalization: the trimmed
`query` string field of a parsed object when that field is a string that is
non-empty after trimming, else nothing. -/
def objQueryRecovered (v : Json) : Option String :=
  match v with
  | Json.obj fields =>
    match lookupLast fields "query" with
    | some (Json.str s) => if jsTrim s = "" then none else some (jsTrim s)
    | _ => none
  | _ => none

/-- C4, claim theorem (amended): query normalization is total; on a trimmed
input it returns the input unchanged when the input is not bracket-delimited
or fails to parse; under the bracket guard, a parse producing a non-string
value recovers the trimmed `query` string field when that field is non-empty
after trimming, and otherwise returns the trimmed input unchanged. (The
plain-string parse shape is unreachable under the guard; see C9.) -/
theorem claim4_normalize_query (q : String) (htrim : jsTrim q = q) :
    (bracketDelimited q = false → normalizeQuery q = q) ∧
    (jsonParse q = none → normalizeQuery q = q) ∧
    (∀ v : Json, bracketDelimited q = true → jsonParse q = some v →
      (∀ s, v ≠ Json.str s) → normalizeQuery q = (objQueryRecovered v).getD q) := by
  refine ⟨?_, ?_, ?_⟩
  · intro hbr
    rw [normalizeQuery_guard_form, htrim]
    by_cases h0 : q = ""
    · rw [if_pos h0]
    · rw [if_neg h0, if_neg (by simp [hbr])]
  · intro hp
    rw [normalizeQuery_guard_form, htrim]
    by_cases h0 : q = ""
    · rw [if_pos h0]
    · rw [if_neg h0]
      by_cases hbr : bracketDelimited q = true
      · rw [if_pos hbr, hp]
      · rw [if_neg hbr]
  · intro v hbr hp hnstr
    rw [normalizeQuery_guard_form, htrim]
    have h0 : q ≠ "" := by
      intro h0
      rw [h0, show jsonParse "" = none from rfl] at hp
      exact Option.noConfusion hp
    rw [if_neg h0, if_pos hbr, hp]
    cases v with
    | str s => exact absurd rfl (hnstr s)
    | null => rfl
    | bool b => rfl
    | num n => rfl
    | arr es => rfl
    | obj fields =>
      show (match lookupLast fields "query" with
        | some (Json.str nested) =>
          if (jsTrim nested).length > 0 then jsTrim nested else q
        | _ => q) = (objQueryRecovered (Json.obj fields)).getD q
      have hrec : objQueryRecovered (Json.obj fields) =
          (match lookupLast fields "query" with
            | some (Json.str s) => if jsTrim s = "" then none else some (jsTrim s)
            | _ => none) := rfl
      rw [hrec]
      cases hl : lookupLast fields "query" with
      | none => rfl
      | some w =>
        cases w with
        | str nested =>
          show (if (jsTrim nested).length > 0 then jsTrim nested else q) =
            ((if jsTrim nested = "" then none else some (jsTrim nested)).getD q)
          by_cases hn : jsTrim nested = ""
          · rw [hn]
            rfl
          · have hlen : (jsTrim nested).length > 0 := by
              have hne : (jsTrim nested).data ≠ [] := by
                intro hnil
                apply hn
                calc jsTrim nested = String.mk (jsTrim nested).data := rfl
                _ = String.mk [] := by rw [hnil]
                _ = "" := rfl
              exact List.length_pos.mpr hne
            rw [if_pos hlen, if_neg hn]
            rfl
        | null => rfl
        | bool b => rfl
        | num n => rfl
        | arr es => rfl
        | obj fs => rfl

/-- C4, counterexample to the claim as stated: `\x7b"query":" "\x7d` parses
to an object whose `query` field is a non-empty string, yet normalization
returns the original trimmed input rather than that field's trimmed value
(the code demands the field be non-blank, not merely non-empty). -/
theorem claim4_counterexample :
    jsonParse "\x7b\"query\":\" \"\x7d" = some (Json.obj [("query", Json.str " ")]) ∧
    (" " : String) ≠ "" ∧
    normalizeQuery "\x7b\"query\":\" \"\x7d" = "\x7b\"query\":\" \"\x7d" ∧
    ("\x7b\"query\":\" \"\x7d" : String) ≠ jsTrim " " :=
  ⟨rfl, by decide, rfl, by decide⟩

/-- C4, witness: the JSON-object query unwraps to `cats`, and a malformed
bracket-opening string normalizes to itself. -/
theorem claim4_witness :
    normalizeQuery "\x7b\"query\":\"cats\"\x7d" = "cats" ∧
    normalizeQuery "not json \x7b" = "not json \x7b" :=
  ⟨((claim4_normalize_query "\x7b\"query\":\"cats\"\x7d" rfl).2.2
      (Json.obj [("query", Json.str "cats")]) rfl rfl
      (fun _ h => Json.noConfusion h)).trans rfl,
    (claim4_normalize_query "not json \x7b" rfl).1 rfl⟩

/-! ## Claim-side validity conditions for input validation -/

/-- The `query` constraint of the claim: a string whose trimmed length lies
between 1 and 100. -/
def queryOk (v : Option Json) : Bool :=
  match v with
  | some (Json.str s) => 1 ≤ (jsTrim s).length && (jsTrim s).length ≤ 100
  | _ => false

/-- The `orientation` constraint of the claim: absent or one of the three
enumerated values. -/
def orientationOk (v : Option Json) : Bool :=
  match v with
  | none => true
  | some (Json.str s) => s == "all" || s == "horizontal" || s == "vertical"
  | some _ => false

/-- The `safesearch` constraint the code enforces: absent or a boolean. -/
def safesearchOk (v : Option Json) : Bool :=
  match v with
  | none => true
  | some (Json.bool _) => true
  | some _ => false

/-- The `per_page` constraint of the claim: absent or an integer between 3
and 20. -/
def perPageOk (v : Option Json) : Bool :=
  match v with
  | none => true
  | some (Json.num q) => q.den == 1 && decide (3 ≤ q) && decide (q ≤ 20)
  | some _ => false

/-- The amended validity condition: the claim's constraints plus the
boolean `safesearch` type constraint the code also enforces. -/
def searchImagesValid (p : RawPayload) : Bool :=
  queryOk p.query && orientationOk p.orientation && safesearchOk p.safesearch &&
    perPageOk p.per_page && p.extraKeys.isEmpty

/-- The claim's validity condition exactly as stated, which omits the
`safesearch` type constraint. -/
def claimedValidNoSafesearch (p : RawPayload) : Bool :=
  queryOk p.query && orientationOk p.orientation && perPageOk p.per_page &&
    p.extraKeys.isEmpty

theorem queryIssues_nil_iff (v : Option Json) :
    queryIssues v = [] ↔ queryOk v = true := by
  cases v with
  | none => simp [queryIssues, queryOk]
  | some j =>
    cases j with
    | str s =>
      by_cases h1 : (jsTrim s).length < 1 <;> by_cases h2 : (jsTrim s).length > 100 <;>
        simp [queryIssues, queryOk, h1, h2] <;> omega
    | null => simp [queryIssues, queryOk]
    | bool b => simp [queryIssues, queryOk]
    | num q => simp [queryIssues, queryOk]
    | arr es => simp [queryIssues, queryOk]
    | obj fs => simp [queryIssues, queryOk]

theorem orientationIssues_nil_iff (v : Option Json) :
    orientationIssues v = [] ↔ orientationOk v = true := by
  cases v with
  | none => simp [orientationIssues, orientationOk]
  | some j =>
    cases j with
    | str s =>
      by_cases hs : (s == "all" || s == "horizontal" || s == "vertical") = true <;>
        simp_all [orientationIssues, orientationOk]
    | null => simp [orientationIssues, orientationOk]
    | bool b => simp [orientationIssues, orientationOk]
    | num q => simp [orientationIssues, orientationOk]
    | arr es => simp [orientationIssues, orientationOk]
    | obj fs => simp [orientationIssues, orientationOk]

theorem safesearchIssues_nil_iff (v : Option Json) :
    safesearchIssues v = [] ↔ safesearchOk v = true := by
  cases v with
  | none => simp [safesearchIssues, safesearchOk]
  | some j =>
    cases j <;> simp [safesearchIssues, safesearchOk]

theorem perPageIssues_nil_iff (v : Option Json) :
    perPageIssues v = [] ↔ perPageOk v = true := by
  cases v with
  | none => simp [perPageIssues, perPageOk]
  | some j =>
    cases j with
    | num q =>
      constructor
      · intro h
        show (q.den == 1 && decide (3 ≤ q) && decide (q ≤ 20)) = true
        have h1 : q.den = 1 := by
          by_contra h1
          simp [perPageIssues, h1] at h
        have h2 : ¬ q < 3 := by
          intro h2
          simp [perPageIssues, h2] at h
        have h3 : ¬ q > 20 := by
          intro h3
          simp [perPageIssues, h3] at h
        simp [h1, not_lt.mp h2, not_lt.mp h3]
      · intro h
        have h' : (q.den = 1 ∧ 3 ≤ q) ∧ q ≤ 20 := by
          simpa [perPageOk] using h
        obtain ⟨⟨h1, h2⟩, h3⟩ := h'
        simp [perPageIssues, h1, not_lt.mpr h2, not_lt.mpr h3]
    | null => simp [perPageIssues, perPageOk]
    | bool b => simp [perPageIssues, perPageOk]
    | str s => simp [perPageIssues, perPageOk]
    | arr es => simp [perPageIssues, perPageOk]
    | obj fs => simp [perPageIssues, perPageOk]

theorem strictIssues_nil_iff (keys : List String) :
    strictIssues keys = [] ↔ keys.isEmpty = true := by
  cases keys <;> simp [strictIssues]

theorem searchImagesIssues_nil_iff (p : RawPayload) :
    searchImagesIssues p = [] ↔ searchImagesValid p = true := by
  rw [searchImagesIssues, searchImagesValid]
  simp only [List.append_eq_nil, Bool.and_eq_true]
  rw [queryIssues_nil_iff, orientationIssues_nil_iff, safesearchIssues_nil_iff,
    perPageIssues_nil_iff, strictIssues_nil_iff]

theorem query_shape_of_issues_nil (p : RawPayload)
    (hnil : searchImagesIssues p = []) : ∃ s, p.query = some (Json.str s) := by
  have hq : queryIssues p.query = [] := by
    rw [searchImagesIssues] at hnil
    have h1 := (List.append_eq_nil.mp hnil).1
    have h2 := (List.append_eq_nil.mp h1).1
    have h3 := (List.append_eq_nil.mp h2).1
    exact (List.append_eq_nil.mp h3).1
  cases hv : p.query with
  | none => rw [hv] at hq; simp [queryIssues] at hq
  | some j =>
    cases j with
    | str s => exact ⟨s, rfl⟩
    | null => rw [hv] at hq; simp [queryIssues] at hq
    | bool b => rw [hv] at hq; simp [queryIssues] at hq
    | num q => rw [hv] at hq; simp [queryIssues] at hq
    | arr es => rw [hv] at hq; simp [queryIssues] at hq
    | obj fs => rw [hv] at hq; simp [queryIssues] at hq

theorem safeParse_ok_of_nil (p : RawPayload) (s : String)
    (hq : p.query = some (Json.str s)) (hnil : searchImagesIssues p = []) :
    searchImagesSafeParse p =
      Except.ok
        { query := jsTrim s
          orientation := orientationValue p.orientation
          safesearch := safesearchValue p.safesearch
          per_page := perPageValue p.per_page } := by
  rw [searchImagesSafeParse, if_pos hnil, hq]

theorem safeParse_error_of_ne_nil (p : RawPayload)
    (hne : searchImagesIssues p ≠ []) :
    searchImagesSafeParse p = Except.error (searchImagesIssues p) := by
  rw [searchImagesSafeParse, if_neg hne]

/-- C3, claim theorem (amended): validation of an untyped payload succeeds
with a typed `SearchRequest` exactly when the trimmed query is a string of
length 1–100, `orientation` (if present) is one of the three enumerated
values, `safesearch` (if present) is a boolean, `per_page` (if present) is
an integer in `[3, 20]`, and no extra fields are present; on success the
produced request carries the trimmed query and the decoded optional fields,
and on failure the tool handler raises — before any upstream search runs —
a validation error joining every violated constraint's message. -/
theorem claim3_input_validation (p : RawPayload) :
    ((∃ r, searchImagesSafeParse p = Except.ok r) ↔ searchImagesValid p = true) ∧
    (∀ s, p.query = some (Json.str s) → searchImagesValid p = true →
      searchImagesSafeParse p =
        Except.ok
          { query := jsTrim s
            orientation := orientationValue p.orientation
            safesearch := safesearchValue p.safesearch
            per_page := perPageValue p.per_page }) ∧
    (∀ issues, searchImagesSafeParse p = Except.error issues →
      issues = queryIssues p.query ++ orientationIssues p.orientation ++
        safesearchIssues p.safesearch ++ perPageIssues p.per_page ++
        strictIssues p.extraKeys ∧
      ∀ fetchResults, imageToolHandler p fetchResults =
        Except.error (String.intercalate "; " issues)) := by
  refine ⟨⟨?_, ?_⟩, ?_, ?_⟩
  · rintro ⟨r, hr⟩
    by_contra hval
    have hne : searchImagesIssues p ≠ [] := by
      intro hnil
      exact hval ((searchImagesIssues_nil_iff p).mp hnil)
    rw [safeParse_error_of_ne_nil p hne] at hr
    exact Except.noConfusion hr
  · intro hval
    have hnil : searchImagesIssues p = [] := (searchImagesIssues_nil_iff p).mpr hval
    obtain ⟨s, hq⟩ := query_shape_of_issues_nil p hnil
    exact ⟨_, safeParse_ok_of_nil p s hq hnil⟩
  · intro s hq hval
    exact safeParse_ok_of_nil p s hq ((searchImagesIssues_nil_iff p).mpr hval)
  · intro issues hiss
    by_cases hnil : searchImagesIssues p = []
    · exfalso
      obtain ⟨s, hq⟩ := query_shape_of_issues_nil p hnil
      rw [safeParse_ok_of_nil p s hq hnil] at hiss
      exact Except.noConfusion hiss
    · have herr := safeParse_error_of_ne_nil p hnil
      rw [herr] at hiss
      have hissues : issues = searchImagesIssues p := by
        injection hiss with h
        exact h.symm
      constructor
      · rw [hissues, searchImagesIssues]
      · intro fetchResults
        rw [imageToolHandler, herr, hissues]

/-- The counterexample payload for C3: a fine query with a numeric
`safesearch`. -/
def payloadBadSafesearch : RawPayload :=
  { query := some (Json.str "cats"), orientation := none,
    safesearch := some (Json.num 1), per_page := none, extraKeys := [] }

/-- A valid payload whose query needs trimming. -/
def payloadSpacedCats : RawPayload :=
  { query := some (Json.str " cats "), orientation := none,
    safesearch := none, per_page := none, extraKeys := [] }

/-- An invalid payload: missing query and an unrecognized key. -/
def payloadMissingQuery : RawPayload :=
  { query := none, orientation := none, safesearch := none, per_page := none,
    extraKeys := ["foo"] }

/-- C3, counterexample to the claim as stated: the payload
`query = "cats", safesearch = 1` satisfies every condition the claim lists
(query length, orientation, per_page, no extra fields), yet validation
fails, because the code also requires `safesearch` to be a boolean. -/
theorem claim3_counterexample :
    claimedValidNoSafesearch payloadBadSafesearch = true ∧
    searchImagesSafeParse payloadBadSafesearch =
      Except.error ["Expected boolean, received number"] :=
  ⟨rfl, rfl⟩

/-- C3, witness: a valid payload parses to the trimmed request, and an
invalid one makes the handler fail with the joined issue messages without
consulting the upstream search. -/
theorem claim3_witness :
    searchImagesSafeParse payloadSpacedCats =
      Except.ok
        { query := "cats", orientation := none, safesearch := none, per_page := none } ∧
    imageToolHandler payloadMissingQuery (fun _ => [witnessImageResult]) =
      Except.error "Required; Unrecognized key(s) in object: foo" :=
  ⟨((claim3_input_validation payloadSpacedCats).2.1 " cats " rfl rfl).trans rfl,
    (((claim3_input_validation payloadMissingQuery).2.2
      ["Required", "Unrecognized key(s) in object: foo"]
      rfl).2 (fun _ => [witnessImageResult])).trans rfl⟩

end Pixabay
